import Mathlib

/-!
Shallow embedding of the transfer engine of
Raspberry-Pi-File-Transfer-Application (src/file_transfer.py).

The embedding models the `FileTransfer` class: single-file upload/download
with chunked progress callbacks, recursive directory walkers, the batch
worker `transfer_files`, the bounded transfer log, and the observer
callbacks.  External collaborators (paramiko SFTP, the OS file systems,
the wall clock) are modelled by an explicit `Env` record; observable
effects (observer callbacks and remote/local primitive operations) are
collected into event traces.  Machine floats of the Python source are
modelled by exact rationals; Python's true division raising
ZeroDivisionError is modelled explicitly.
-/

namespace RPFT

/-- A file-store node: a regular file with a byte size, or a directory
with named children (the shape returned by os.listdir / listdir_attr). -/
inductive FsNode : Type where
  | file (size : Nat)
  | dir (entries : List (String × FsNode))

/-- File-level observable events: observer callbacks fired from inside a
single-file transfer or a directory walk, and the primitive operations the
code performs.  `speed` and `eta` carry the raw rational values that the
source then formats into strings (format_size / format_time); the
formatting itself is presentational and not modelled.  The call* events
record which transfer routine was invoked with which arguments. -/
inductive FEvent : Type where
  | progress (p : ℚ)
  | speed (v : ℚ)
  | eta (v : ℚ)
  | putFile (src dst : String)
  | getFile (src dst : String)
  | mkdirLocal (p : String)
  | mkdirRemote (p : String)
  | callUploadFile (src dst : String)
  | callDownloadFile (src dst : String)
  | callUploadDir (src dst : String)
  | callDownloadDir (src dst : String)
deriving DecidableEq

/-- Batch-level observable events of the worker thread: file-level events
(injected), status-callback messages, and the per-job progress values the
batch loop emits through the progress callback. -/
inductive Event : Type where
  | file (e : FEvent)
  | status (m : String)
  | progress (p : ℚ)
deriving DecidableEq

/-- Which of the four observer callbacks are set (set_progress_callbacks):
an unset callback means the corresponding `if self.xxx_callback:` guard in
the source is false and the event is not emitted. -/
structure Callbacks : Type where
  progress : Bool
  status : Bool
  speed : Bool
  eta : Bool
deriving DecidableEq

/-- One entry of self.transfer_log, as built by log_transfer. -/
structure LogEntry : Type where
  timestamp : String
  action : String
  filename : String
  size : Option Nat
  duration : ℚ
deriving DecidableEq

/-- The mocked environment: connection state (is_connected_to_server and
get_sftp_client folded into one flag), the local and remote file stores as
partial maps from path strings to nodes, the paramiko chunk size, the
elapsed wall-clock time observed at the j-th chunk callback of a file
transfer, the timestamp string and duration observed when logging the
i-th batch job, and a recursion-depth budget for the directory walkers
(Python's recursion limit). -/
structure Env : Type where
  connected : Bool
  localNode : String → Option FsNode
  remoteNode : String → Option FsNode
  chunkSize : Nat
  elapsedAt : Nat → ℚ
  nowAt : Nat → String
  durAt : Nat → ℚ
  fuel : Nat

/-- os.path.basename for POSIX-style paths: the part after the last slash
(empty for a path ending in a slash, the whole string when there is no
slash), computed by a left fold over the characters. -/
def basename (p : String) : String :=
  String.mk (p.data.foldl (fun acc c => if c = '/' then [] else acc ++ [c]) [])

/-- os.path.isdir. -/
def os_isdir (env : Env) (p : String) : Bool :=
  match env.localNode p with
  | some (FsNode.dir _) => true
  | _ => false

/-- os.path.getsize: size of a regular file; a directory also has a stat
size (4096 on a typical ext4 system); a missing path raises (none). -/
def os_getsize (env : Env) (p : String) : Option Nat :=
  match env.localNode p with
  | some (FsNode.file n) => some n
  | some (FsNode.dir _) => some 4096
  | none => none

/-- st_size of a remote node, as returned by sftp.stat. -/
def nodeStatSize : FsNode → Nat
  | FsNode.file n => n
  | FsNode.dir _ => 4096

/-- Whether the first character list starts with the second. -/
def charsStartWith : List Char → List Char → Bool
  | _, [] => true
  | [], _ :: _ => false
  | a :: as, b :: bs => a = b && charsStartWith as bs

/-- Whether the second character list occurs contiguously in the first. -/
def charsContain : List Char → List Char → Bool
  | [], pat => charsStartWith [] pat
  | c :: t, pat => charsStartWith (c :: t) pat || charsContain t pat

/-- Substring test, modelling Python's `pat in s`. -/
def containsStr (s pat : String) : Bool :=
  charsContain s.data pat.data

/-- The cumulative byte counts at which the streaming put/get primitive
invokes its callback: one invocation per transferred chunk, the last one
carrying the total size.  A 0-byte stream has no chunks, so the callback
is never invoked for it. -/
def chunkBoundaries (size chunk : Nat) : List Nat :=
  (List.range ((size + chunk - 1) / chunk)).map (fun j => min ((j + 1) * chunk) size)

/-- The speed/ETA block of the per-chunk callback in upload_file and
download_file (the two closures in the source are verbatim identical):
executed only when `elapsed > 0`; speed = bytes/elapsed, and
eta = (file_size - bytes)/speed when speed > 0, else 0. -/
def speedEtaEvents (cfg : Callbacks) (file_size bytes : Nat) (elapsed : ℚ) : List FEvent :=
  if 0 < elapsed then
    let speed : ℚ := (bytes : ℚ) / elapsed
    (if cfg.speed then [FEvent.speed speed] else [])
      ++ (if cfg.eta then
            [FEvent.eta (if 0 < speed then ((file_size : ℚ) - (bytes : ℚ)) / speed else 0)]
          else [])
  else []

/-- The per-chunk callback of upload_file / download_file: raises when the
cancel flag is set; computes `(bytes / file_size) * 100`, which in Python
raises ZeroDivisionError when file_size = 0 (there is no guard in the
source); then runs the speed/ETA block. -/
def chunkCallback (cancelled : Bool) (cfg : Callbacks) (file_size bytes : Nat)
    (elapsed : ℚ) : Except String (List FEvent) :=
  if cancelled then Except.error "Transfer cancelled / Transfer iptal edildi"
  else if cfg.progress then
    if file_size = 0 then Except.error "division by zero"
    else Except.ok (FEvent.progress (((bytes : ℚ) / (file_size : ℚ)) * 100)
           :: speedEtaEvents cfg file_size bytes elapsed)
  else Except.ok (speedEtaEvents cfg file_size bytes elapsed)

/-- Run the chunk callback at each boundary in order; a raise aborts the
stream (later callbacks do not run) and surfaces as the error message of
the underlying put/get call.  Events of callbacks that already ran were
already delivered.  `j` indexes the invocation for the elapsed clock. -/
def runChunkCallbacks (cancelled : Bool) (cfg : Callbacks) (file_size : Nat)
    (elapsedAt : Nat → ℚ) : Nat → List Nat → List FEvent × Option String
  | _, [] => ([], none)
  | j, b :: rest =>
    match chunkCallback cancelled cfg file_size b (elapsedAt j) with
    | Except.error msg => ([], some msg)
    | Except.ok evs =>
      let r := runChunkCallbacks cancelled cfg file_size elapsedAt (j + 1) rest
      (evs ++ r.1, r.2)

/-- upload_file: fails fast when not connected; resolves the size via
os.path.getsize (a raise is caught by the outer except → False); streams
with the chunk callback; if the put raises with "callback" in the message
it retries without callbacks and synthesizes one 100% progress event;
any other raise returns False. -/
def upload_file (env : Env) (cfg : Callbacks) (cancelled : Bool)
    (local_path remote_path : String) : Bool × List FEvent :=
  let call := FEvent.callUploadFile local_path remote_path
  if env.connected = false then (false, [call])
  else
    match os_getsize env local_path with
    | none => (false, [call])
    | some file_size =>
      let r := runChunkCallbacks cancelled cfg file_size env.elapsedAt 0
                 (chunkBoundaries file_size env.chunkSize)
      match r.2 with
      | none => (true, call :: r.1 ++ [FEvent.putFile local_path remote_path])
      | some msg =>
        if containsStr msg.toLower "callback" then
          (true, call :: r.1 ++ [FEvent.putFile local_path remote_path]
                   ++ (if cfg.progress then [FEvent.progress 100] else []))
        else (false, call :: r.1)

/-- download_file: fails fast when not connected; resolves the size via
sftp.stat (a missing path raises → False); sftp.get on a directory raises
before invoking any callback → False; otherwise streams with the chunk
callback, with the same "callback" fallback as upload_file. -/
def download_file (env : Env) (cfg : Callbacks) (cancelled : Bool)
    (remote_path local_path : String) : Bool × List FEvent :=
  let call := FEvent.callDownloadFile remote_path local_path
  if env.connected = false then (false, [call])
  else
    match env.remoteNode remote_path with
    | none => (false, [call])
    | some (FsNode.dir _) => (false, [call])
    | some (FsNode.file file_size) =>
      let r := runChunkCallbacks cancelled cfg file_size env.elapsedAt 0
                 (chunkBoundaries file_size env.chunkSize)
      match r.2 with
      | none => (true, call :: r.1 ++ [FEvent.getFile remote_path local_path])
      | some msg =>
        if containsStr msg.toLower "callback" then
          (true, call :: r.1 ++ [FEvent.getFile remote_path local_path]
                   ++ (if cfg.progress then [FEvent.progress 100] else []))
        else (false, call :: r.1)

/-- upload_directory: mkdir on the remote (already-exists tolerated), then
os.listdir the local path (a raise, e.g. not a directory, is caught by the
outer except → False after the mkdir already happened); per entry, recurse
for subdirectories and delegate files to upload_file; per-entry results
are ignored, the walk itself returns True.  Recursion depth is bounded by
the fuel (Python's recursion limit); exhaustion is a failure. -/
def upload_directory (env : Env) (cfg : Callbacks) :
    Nat → String → String → Bool × List FEvent
  | 0, local_path, remote_path =>
    (false, [FEvent.callUploadDir local_path remote_path])
  | fuel + 1, local_path, remote_path =>
    let call := FEvent.callUploadDir local_path remote_path
    if env.connected = false then (false, [call])
    else
      match env.localNode local_path with
      | some (FsNode.dir entries) =>
        let childEvs := entries.map (fun nc =>
          let local_item := local_path ++ "/" ++ nc.1
          let remote_item := remote_path ++ "/" ++ nc.1
          match nc.2 with
          | FsNode.dir _ => (upload_directory env cfg fuel local_item remote_item).2
          | FsNode.file _ => (upload_file env cfg false local_item remote_item).2)
        (true, call :: FEvent.mkdirRemote remote_path :: childEvs.flatten)
      | _ => (false, [call, FEvent.mkdirRemote remote_path])

/-- download_directory: os.makedirs the local path (exist_ok), then
listdir_attr the remote path (a raise is caught by the outer except →
False after the makedirs already happened); per entry, test the st_mode
directory bit, recurse for subdirectories and delegate files to
download_file; per-entry results are ignored, the walk returns True. -/
def download_directory (env : Env) (cfg : Callbacks) :
    Nat → String → String → Bool × List FEvent
  | 0, remote_path, local_path =>
    (false, [FEvent.callDownloadDir remote_path local_path])
  | fuel + 1, remote_path, local_path =>
    let call := FEvent.callDownloadDir remote_path local_path
    if env.connected = false then (false, [call])
    else
      match env.remoteNode remote_path with
      | some (FsNode.dir entries) =>
        let childEvs := entries.map (fun nc =>
          let remote_item := remote_path ++ "/" ++ nc.1
          let local_item := local_path ++ "/" ++ nc.1
          match nc.2 with
          | FsNode.dir _ => (download_directory env cfg fuel remote_item local_item).2
          | FsNode.file _ => (download_file env cfg false remote_item local_item).2)
        (true, call :: FEvent.mkdirLocal local_path :: childEvs.flatten)
      | _ => (false, [call, FEvent.mkdirLocal local_path])

/-- get_file_size: remote branch goes through the sftp client (None when
unavailable, stat raise caught → None), local branch through
os.path.getsize. -/
def get_file_size (env : Env) (path : String) (is_remote : Bool) : Option Nat :=
  if is_remote then
    if env.connected then
      match env.remoteNode path with
      | some n => some (nodeStatSize n)
      | none => none
    else none
  else os_getsize env path

/-- log_transfer: append the entry, then keep only the last 100 entries
(Python `self.transfer_log[-100:]`). -/
def log_transfer (log : List LogEntry) (e : LogEntry) : List LogEntry :=
  if (log ++ [e]).length > 100 then (log ++ [e]).drop ((log ++ [e]).length - 100)
  else log ++ [e]

/-- The log entry built for the i-th batch job: timestamp from the clock,
action = the direction string, filename = basename of the source,
size from get_file_size with is_remote = (direction == "download"). -/
def mkLogEntry (env : Env) (direction : String) (i : Nat) (src : String) : LogEntry :=
  { timestamp := env.nowAt i
    action := direction
    filename := basename src
    size := get_file_size env src (direction = "download")
    duration := env.durAt i }

/-- The status message emitted before the i-th job (0-based) of a batch of
`total` jobs. -/
def transferringMsg (i total : Nat) (src : String) : String :=
  "Transferring (" ++ toString (i + 1) ++ "/" ++ toString total ++ "): " ++ basename src

/-- The externally driven cancel flag: cancel_transfer is called on the
GUI thread; we model the admissible interleaving in which the flag flips
to true exactly at the top-of-iteration checkpoint `k` (cancelFrom =
some k) and is observed as true by every read at logical time ≥ k; the
final status read after the loop happens at time `total`. -/
def cancelFlag (cancelFrom : Option Nat) (t : Nat) : Bool :=
  match cancelFrom with
  | none => false
  | some k => decide (k ≤ t)

/-- The per-job loop of the worker thread in transfer_files: checkpoint on
the cancel flag, status message, dispatch (upload: isdir test chooses the
directory walker, else upload_file; any other direction: always
download_file, with no directory test), logging on success when not
cancelled, then the per-job progress update when not cancelled. -/
def batchLoop (env : Env) (cfg : Callbacks) (direction : String) (total : Nat)
    (cancelFrom : Option Nat) : Nat → List (String × String) → List LogEntry →
    List Event × List LogEntry
  | _, [], log => ([], log)
  | i, (src, dst) :: rest, log =>
    if cancelFlag cancelFrom i then ([], log)
    else
      let statusEvs : List Event :=
        if cfg.status then [Event.status (transferringMsg i total src)] else []
      let r : Bool × List FEvent :=
        if direction = "upload" then
          if os_isdir env src then upload_directory env cfg env.fuel src dst
          else upload_file env cfg false src dst
        else download_file env cfg false src dst
      let log' :=
        if r.1 && !(cancelFlag cancelFrom i) then
          log_transfer log (mkLogEntry env direction i src)
        else log
      let progressEvs : List Event :=
        if !(cancelFlag cancelFrom i) && cfg.progress then
          [Event.progress (((i : ℚ) + 1) / (total : ℚ) * 100)]
        else []
      let rec' := batchLoop env cfg direction total cancelFrom (i + 1) rest log'
      (statusEvs ++ r.2.map Event.file ++ progressEvs ++ rec'.1, rec'.2)

/-- The body of the worker thread spawned by transfer_files: run the loop
from job 0, then emit the final status ("Transfer cancelled" when the
cancel flag is set at that point, else "Transfer completed"); the finally
block then resets both flags (reflected in `transfer_files` below). -/
def transfer_thread (env : Env) (cfg : Callbacks) (jobs : List (String × String))
    (direction : String) (cancelFrom : Option Nat) (log0 : List LogEntry) :
    List Event × List LogEntry :=
  let r := batchLoop env cfg direction jobs.length cancelFrom 0 jobs log0
  let fin : List Event :=
    if cfg.status then
      [Event.status
        (if cancelFlag cancelFrom jobs.length then "Transfer cancelled"
         else "Transfer completed")]
    else []
  (r.1 ++ fin, r.2)

/-- The engine state of a FileTransfer instance that the claims observe. -/
structure EngineState : Type where
  transfer_in_progress : Bool
  transfer_cancelled : Bool
  callbacks : Callbacks
  transfer_log : List LogEntry

/-- transfer_files: rejected immediately (False, nothing mutated) when a
batch is in progress; otherwise the worker thread runs (modelled to
completion: the thread sets in_progress, clears the cancel flag, runs the
batch, and the finally block resets both flags), and the call returns
True.  The returned triple is (return value, engine state after the
worker finished, events emitted by the worker). -/
def transfer_files (env : Env) (s : EngineState) (jobs : List (String × String))
    (direction : String) (cancelFrom : Option Nat) :
    Bool × EngineState × List Event :=
  if s.transfer_in_progress then (false, s, [])
  else
    let r := transfer_thread env s.callbacks jobs direction cancelFrom s.transfer_log
    (true,
     { s with transfer_log := r.2, transfer_in_progress := false,
              transfer_cancelled := false },
     r.1)

/-- get_transfer_log returns `self.transfer_log.copy()`: a fresh list
object whose elements are the same entry references.  The heap of entry
objects is modelled explicitly for the aliasing claims: the engine log is
a list of addresses into the heap. -/
def get_transfer_log (log : List Nat) : List Nat := log

/-- In-place mutation of the entry object at one heap address. -/
def heapSet (h : Nat → LogEntry) (a : Nat) (e : LogEntry) : Nat → LogEntry :=
  fun x => if x = a then e else h x

/-- The sequence of entry values an observer of the log sees: each address
dereferenced in the current heap. -/
def viewLog (h : Nat → LogEntry) (log : List Nat) : List LogEntry :=
  log.map h

/-- The status-callback messages of an event trace, in emission order. -/
def statusMsgs (evs : List Event) : List String :=
  evs.filterMap fun e =>
    match e with
    | Event.status m => some m
    | _ => none

/-- Whether a file-level event is a dispatch of one of the four transfer
routines. -/
def isCallEv : FEvent → Bool
  | FEvent.callUploadFile _ _ => true
  | FEvent.callDownloadFile _ _ => true
  | FEvent.callUploadDir _ _ => true
  | FEvent.callDownloadDir _ _ => true
  | _ => false

/-- The dispatch events of a batch trace, in order. -/
def callsOf (evs : List Event) : List FEvent :=
  evs.filterMap fun e =>
    match e with
    | Event.file fe => if isCallEv fe then some fe else none
    | _ => none

/-- The per-chunk progress percentages emitted during one single-file
transfer. -/
def fileProgressValues (fevs : List FEvent) : List ℚ :=
  fevs.filterMap fun e =>
    match e with
    | FEvent.progress p => some p
    | _ => none

/-- The speed values emitted by one chunk-callback invocation (empty when
the callback raised). -/
def speedValues : Except String (List FEvent) → List ℚ
  | Except.error _ => []
  | Except.ok evs => evs.filterMap fun e =>
      match e with
      | FEvent.speed v => some v
      | _ => none

/-- The ETA values emitted by one chunk-callback invocation. -/
def etaValues : Except String (List FEvent) → List ℚ
  | Except.error _ => []
  | Except.ok evs => evs.filterMap fun e =>
      match e with
      | FEvent.eta v => some v
      | _ => none

/-- The local-directory-creation events of a batch trace. -/
def mkdirLocalPaths (evs : List Event) : List String :=
  evs.filterMap fun e =>
    match e with
    | Event.file (FEvent.mkdirLocal p) => some p
    | _ => none

/-- All four observer callbacks set. -/
def cfgAll : Callbacks := ⟨true, true, true, true⟩

/-- A freshly constructed engine: idle, cancel flag clear, empty log. -/
def s0 : EngineState := ⟨false, false, cfgAll, []⟩

/-- An engine with a batch already in progress. -/
def busy0 : EngineState := ⟨true, false, cfgAll, []⟩

/-- Environment with a single 0-byte local file "a" and a 0-byte remote
file "/r/b". -/
def env1 : Env :=
  { connected := true
    localNode := fun p => if p = "a" then some (FsNode.file 0) else none
    remoteNode := fun p => if p = "/r/b" then some (FsNode.file 0) else none
    chunkSize := 32768
    elapsedAt := fun _ => 1
    nowAt := fun _ => "2024-01-01 00:00:00"
    durAt := fun _ => 1
    fuel := 8 }

/-- The remote directory of the spec scenario: /remote/d containing the
100-byte file f.bin and the empty subdirectory sub. -/
def remoteD : FsNode :=
  FsNode.dir [("f.bin", FsNode.file 100), ("sub", FsNode.dir [])]

/-- Environment for the directory-download scenario. -/
def env2 : Env :=
  { connected := true
    localNode := fun _ => none
    remoteNode := fun p =>
      if p = "/remote/d" then some remoteD
      else if p = "/remote/d/f.bin" then some (FsNode.file 100)
      else if p = "/remote/d/sub" then some (FsNode.dir []) else none
    chunkSize := 32768
    elapsedAt := fun _ => 1
    nowAt := fun _ => "2024-01-01 00:00:00"
    durAt := fun _ => 1
    fuel := 8 }

/-- Environment with a local directory /home/u/pics holding two files. -/
def env3 : Env :=
  { connected := true
    localNode := fun p =>
      if p = "/home/u/pics" then
        some (FsNode.dir [("a.txt", FsNode.file 5), ("b.txt", FsNode.file 7)])
      else if p = "/home/u/pics/a.txt" then some (FsNode.file 5)
      else if p = "/home/u/pics/b.txt" then some (FsNode.file 7)
      else none
    remoteNode := fun _ => none
    chunkSize := 32768
    elapsedAt := fun _ => 1
    nowAt := fun _ => "2024-01-01 00:00:00"
    durAt := fun _ => 1
    fuel := 8 }

/-- Environment where the remote file /r/y exists (10 bytes) and /r/x
does not. -/
def env6 : Env :=
  { connected := true
    localNode := fun _ => none
    remoteNode := fun p => if p = "/r/y" then some (FsNode.file 10) else none
    chunkSize := 32768
    elapsedAt := fun _ => 1
    nowAt := fun _ => "2024-01-01 00:00:00"
    durAt := fun _ => 1
    fuel := 8 }

/-- A two-job download batch whose first job fails (missing remote file). -/
def jobs6 : List (String × String) := [("/r/x", "x"), ("/r/y", "y")]

/-- 101 pairwise distinct log entries (distinguished by their size field). -/
def es101 : List LogEntry :=
  (List.range 101).map fun i => ⟨"2024-01-01 00:00:00", "upload", "f", some i, 1⟩

/-- A concrete log-entry value held in the heap of entry objects. -/
def entryA : LogEntry := ⟨"2024-01-01 00:00:00", "upload", "a.txt", some 1, 1⟩

/-- The value an aliasing caller overwrites `entryA` with in place. -/
def entryB : LogEntry := ⟨"2024-01-01 00:00:00", "upload", "a.txt", some 2, 1⟩

/-- A heap of entry objects holding `entryA` at every address. -/
def heap0 : Nat → LogEntry := fun _ => entryA

/-! Helper lemmas about the event-trace projections. -/

theorem statusMsgs_append (a b : List Event) :
    statusMsgs (a ++ b) = statusMsgs a ++ statusMsgs b := by
  simp [statusMsgs]

theorem statusMsgs_map_file (l : List FEvent) :
    statusMsgs (l.map Event.file) = [] := by
  induction l with
  | nil => rfl
  | cons x t ih => simp [statusMsgs, List.filterMap_cons]

theorem statusMsgs_ite_status (c : Bool) (m : String) :
    statusMsgs (if c then [Event.status m] else []) = if c then [m] else [] := by
  cases c <;> simp [statusMsgs, List.filterMap_cons]

theorem statusMsgs_ite_progress (c : Bool) (p : ℚ) :
    statusMsgs (if c then [Event.progress p] else []) = [] := by
  cases c <;> simp [statusMsgs, List.filterMap_cons]

theorem callsOf_append (a b : List Event) :
    callsOf (a ++ b) = callsOf a ++ callsOf b := by
  simp [callsOf]

theorem callsOf_map_file (l : List FEvent) :
    callsOf (l.map Event.file) = l.filter (fun e => isCallEv e) := by
  induction l with
  | nil => rfl
  | cons x t ih =>
    simp only [List.map_cons, callsOf, List.filterMap_cons, List.filter_cons] at ih ⊢
    cases h : isCallEv x <;> simp [h, ih]

theorem callsOf_ite_status (c : Bool) (m : String) :
    callsOf (if c then [Event.status m] else []) = [] := by
  cases c <;> simp [callsOf, List.filterMap_cons]

theorem callsOf_ite_progress (c : Bool) (p : ℚ) :
    callsOf (if c then [Event.progress p] else []) = [] := by
  cases c <;> simp [callsOf, List.filterMap_cons]

theorem speedEtaEvents_no_calls (cfg : Callbacks) (fs b : Nat) (el : ℚ)
    (e : FEvent) (he : e ∈ speedEtaEvents cfg fs b el) : isCallEv e = false := by
  unfold speedEtaEvents at he
  split at he
  · simp only [List.mem_append] at he
    rcases he with h | h
    · rcases hs : cfg.speed
      · rw [hs] at h; simp at h
      · rw [hs] at h; simp only [if_true, List.mem_singleton] at h
        subst h; rfl
    · rcases hs : cfg.eta
      · rw [hs] at h; simp at h
      · rw [hs] at h; simp only [if_true, List.mem_singleton] at h
        subst h; rfl
  · simp at he

theorem chunkCallback_ok_no_calls (c : Bool) (cfg : Callbacks) (fs b : Nat) (el : ℚ)
    (evs : List FEvent) (h : chunkCallback c cfg fs b el = Except.ok evs)
    (e : FEvent) (he : e ∈ evs) : isCallEv e = false := by
  unfold chunkCallback at h
  split at h
  · cases h
  · split at h
    · split at h
      · cases h
      · cases h
        rcases List.mem_cons.mp he with rfl | hm
        · simp [isCallEv]
        · exact speedEtaEvents_no_calls cfg fs b el e hm
    · cases h
      exact speedEtaEvents_no_calls cfg fs b el e he

theorem runChunkCallbacks_no_calls (c : Bool) (cfg : Callbacks) (fs : Nat)
    (elapsedAt : Nat → ℚ) : ∀ (bs : List Nat) (j : Nat),
    (runChunkCallbacks c cfg fs elapsedAt j bs).1.filter (fun e => isCallEv e) = []
  | [], _ => rfl
  | b :: rest, j => by
    simp only [runChunkCallbacks]
    cases h : chunkCallback c cfg fs b (elapsedAt j) with
    | error msg => simp
    | ok evs =>
      simp only [List.filter_append]
      rw [runChunkCallbacks_no_calls c cfg fs elapsedAt rest (j + 1)]
      rw [List.filter_eq_nil_iff.mpr]
      · simp
      · intro e he
        simp [chunkCallback_ok_no_calls c cfg fs b (elapsedAt j) evs h e he]

theorem download_file_calls (env : Env) (cfg : Callbacks) (c : Bool) (s d : String) :
    (download_file env cfg c s d).2.filter (fun e => isCallEv e)
      = [FEvent.callDownloadFile s d] := by
  unfold download_file
  split
  · simp [isCallEv]
  · split
    · simp [isCallEv]
    · simp [isCallEv]
    · rename_i fsz heq
      dsimp only
      cases hr : (runChunkCallbacks c cfg fsz env.elapsedAt 0
          (chunkBoundaries fsz env.chunkSize)).2 with
      | none =>
        simp only [List.filter_cons, List.filter_append, runChunkCallbacks_no_calls]
        simp [isCallEv]
      | some msg =>
        cases hcb : containsStr msg.toLower "callback" with
        | true =>
          simp only [hcb, if_true, List.filter_cons, List.filter_append,
            runChunkCallbacks_no_calls]
          cases hp : cfg.progress <;> simp [isCallEv]
        | false =>
          simp only [hcb, Bool.false_eq_true, if_false, List.filter_cons,
            runChunkCallbacks_no_calls]
          simp [isCallEv]

/-! Helper lemmas about the bounded log. -/

theorem drop_append_le {α : Type} (l₁ l₂ : List α) (n : Nat) (h : n ≤ l₁.length) :
    (l₁ ++ l₂).drop n = l₁.drop n ++ l₂ := by
  rw [List.drop_append_eq_append_drop, Nat.sub_eq_zero_of_le h, List.drop_zero]

theorem log_transfer_eq_drop (log : List LogEntry) (e : LogEntry) :
    log_transfer log e = (log ++ [e]).drop ((log ++ [e]).length - 100) := by
  unfold log_transfer
  split
  · rfl
  · next h =>
    have h0 : (log ++ [e]).length - 100 = 0 := by omega
    rw [h0, List.drop_zero]

theorem log_transfer_length (log : List LogEntry) (e : LogEntry) :
    (log_transfer log e).length = min (log.length + 1) 100 := by
  rw [log_transfer_eq_drop, List.length_drop]
  simp only [List.length_append, List.length_singleton]
  omega

theorem log_transfer_mem (log : List LogEntry) (en e : LogEntry)
    (h : e ∈ log_transfer log en) : e ∈ log ∨ e = en := by
  rw [log_transfer_eq_drop] at h
  have := List.mem_of_mem_drop h
  simp only [List.mem_append, List.mem_singleton] at this
  exact this

theorem foldl_log_transfer (es : List LogEntry) :
    ∀ (log : List LogEntry), log.length ≤ 100 →
    es.foldl log_transfer log = (log ++ es).drop ((log ++ es).length - 100) := by
  induction es with
  | nil =>
    intro log h
    simp only [List.foldl_nil, List.append_nil]
    have h0 : log.length - 100 = 0 := by omega
    rw [h0, List.drop_zero]
  | cons e es ih =>
    intro log h
    rw [List.foldl_cons]
    have hlen : (log_transfer log e).length ≤ 100 := by
      rw [log_transfer_length]; omega
    rw [ih (log_transfer log e) hlen, log_transfer_eq_drop]
    have hcons : log ++ e :: es = (log ++ [e]) ++ es := by simp
    rw [hcons]
    rw [← drop_append_le (log ++ [e]) es ((log ++ [e]).length - 100) (Nat.sub_le _ _),
      List.drop_drop]
    have harith :
        (log ++ [e]).length - 100
            + (((log ++ [e] ++ es).drop ((log ++ [e]).length - 100)).length - 100)
          = (log ++ [e] ++ es).length - 100 := by
      simp only [List.length_drop, List.length_append, List.length_cons, List.length_nil]
      omega
    rw [harith]

/-! Helper lemmas about the batch worker loop. -/

theorem batchLoop_statusMsgs_none (env : Env) (cfg : Callbacks) (direction : String)
    (total : Nat) (hst : cfg.status = true) :
    ∀ (jobs : List (String × String)) (i : Nat) (log : List LogEntry),
    statusMsgs (batchLoop env cfg direction total none i jobs log).1
      = (jobs.enumFrom i).map (fun p => transferringMsg p.1 total p.2.1) := by
  intro jobs
  induction jobs with
  | nil => intro i log; simp [batchLoop, statusMsgs]
  | cons j rest ih =>
    intro i log
    obtain ⟨src, dst⟩ := j
    have hflag : cancelFlag none i = false := rfl
    simp only [batchLoop, hflag, Bool.false_eq_true, if_false, Bool.not_false,
      Bool.true_and, hst, if_true]
    rw [statusMsgs_append, statusMsgs_append, statusMsgs_append,
      statusMsgs_map_file, statusMsgs_ite_progress, ih]
    simp [statusMsgs, List.filterMap_cons, List.enumFrom]

theorem batchLoop_statusMsgs_cancel (env : Env) (cfg : Callbacks) (direction : String)
    (total k : Nat) (hst : cfg.status = true) :
    ∀ (jobs : List (String × String)) (i : Nat) (log : List LogEntry),
    statusMsgs (batchLoop env cfg direction total (some k) i jobs log).1
      = ((jobs.take (k - i)).enumFrom i).map (fun p => transferringMsg p.1 total p.2.1) := by
  intro jobs
  induction jobs with
  | nil => intro i log; simp [batchLoop, statusMsgs]
  | cons j rest ih =>
    intro i log
    obtain ⟨src, dst⟩ := j
    by_cases hk : k ≤ i
    · have hflag : cancelFlag (some k) i = true := by simp [cancelFlag, hk]
      have htake : k - i = 0 := Nat.sub_eq_zero_of_le hk
      simp [batchLoop, hflag, htake, statusMsgs]
    · have hflag : cancelFlag (some k) i = false := by
        simp only [cancelFlag, decide_eq_false_iff_not]
        omega
      have htake : k - i = (k - (i + 1)) + 1 := by omega
      simp only [batchLoop, hflag, Bool.false_eq_true, if_false, Bool.not_false,
        Bool.true_and, hst, if_true]
      rw [statusMsgs_append, statusMsgs_append, statusMsgs_append,
        statusMsgs_map_file, statusMsgs_ite_progress, ih, htake]
      simp [statusMsgs, List.filterMap_cons, List.enumFrom]

theorem batchLoop_calls_nonupload (env : Env) (cfg : Callbacks) (direction : String)
    (total : Nat) (hdir : ¬ direction = "upload") :
    ∀ (jobs : List (String × String)) (i : Nat) (log : List LogEntry),
    callsOf (batchLoop env cfg direction total none i jobs log).1
      = jobs.map (fun j => FEvent.callDownloadFile j.1 j.2) := by
  intro jobs
  induction jobs with
  | nil => intro i log; simp [batchLoop, callsOf]
  | cons j rest ih =>
    intro i log
    obtain ⟨src, dst⟩ := j
    have hflag : cancelFlag none i = false := rfl
    simp only [batchLoop, hflag, Bool.false_eq_true, if_false, Bool.not_false,
      Bool.true_and, hdir]
    rw [callsOf_append, callsOf_append, callsOf_append, callsOf_ite_status,
      callsOf_map_file, callsOf_ite_progress, download_file_calls, ih]
    simp

theorem batchLoop_log_mem (env : Env) (cfg : Callbacks) (direction : String)
    (total : Nat) (cancelFrom : Option Nat) :
    ∀ (jobs : List (String × String)) (i : Nat) (log : List LogEntry) (e : LogEntry),
    e ∈ (batchLoop env cfg direction total cancelFrom i jobs log).2 →
      e ∈ log ∨ ∃ j ∈ jobs, e.filename = basename j.1 := by
  intro jobs
  induction jobs with
  | nil => intro i log e he; left; simpa [batchLoop] using he
  | cons j rest ih =>
    intro i log e he
    obtain ⟨src, dst⟩ := j
    by_cases hflag : cancelFlag cancelFrom i = true
    · simp only [batchLoop, hflag, if_true] at he
      exact Or.inl he
    · simp only [batchLoop, hflag, Bool.false_eq_true, if_false] at he
      rcases ih (i + 1) _ e he with hlog | ⟨j2, hj2, hfn⟩
      · simp only [Bool.not_false, Bool.and_true] at hlog
        by_cases hcond :
          (if direction = "upload" then
              if os_isdir env src = true then upload_directory env cfg env.fuel src dst
              else upload_file env cfg false src dst
            else download_file env cfg false src dst).1 = true
        · rw [if_pos hcond] at hlog
          rcases log_transfer_mem log _ e hlog with h | h
          · exact Or.inl h
          · refine Or.inr ⟨(src, dst), List.mem_cons_self _ _, ?_⟩
            rw [h]
            rfl
        · rw [if_neg hcond] at hlog
          exact Or.inl hlog
      · exact Or.inr ⟨j2, List.mem_cons_of_mem _ hj2, hfn⟩

/-! Helper lemmas for the heap view of the log and for empty streams. -/

theorem viewLog_set_notin (h : Nat → LogEntry) (a : Nat) (e : LogEntry) :
    ∀ log : List Nat, a ∉ log → viewLog (heapSet h a e) log = viewLog h log := by
  intro log
  induction log with
  | nil => intro _; rfl
  | cons x t ih =>
    intro ha
    simp only [List.mem_cons, not_or] at ha
    obtain ⟨hax, hat⟩ := ha
    have htail := ih hat
    simp only [viewLog, List.map_cons] at htail ⊢
    rw [htail]
    simp only [List.cons.injEq, and_true]
    unfold heapSet
    rw [if_neg]
    intro hxa
    exact hax hxa.symm

theorem viewLog_set_ne (h : Nat → LogEntry) (a : Nat) (e : LogEntry)
    (hne : ¬ e = h a) :
    ∀ log : List Nat, a ∈ log → ¬ viewLog (heapSet h a e) log = viewLog h log := by
  intro log
  induction log with
  | nil => intro ha; cases ha
  | cons x t ih =>
    intro ha heq
    simp only [viewLog, List.map_cons, List.cons.injEq] at heq
    obtain ⟨hhead, htail⟩ := heq
    rcases List.mem_cons.mp ha with h1 | hat
    · subst h1
      unfold heapSet at hhead
      rw [if_pos rfl] at hhead
      exact hne hhead
    · exact ih hat (by simpa [viewLog] using htail)

theorem chunkBoundaries_zero (c : Nat) : chunkBoundaries 0 c = [] := by
  unfold chunkBoundaries
  have h0 : (0 + c - 1) / c = 0 := by
    rcases c with _ | c
    · rfl
    · apply Nat.div_eq_of_lt
      omega
  rw [h0]
  rfl

/-! The claims. -/

/-- Claim C1 (corrected): for a single-file transfer whose resolved total
size is 0 bytes, the streaming primitive has no chunks, so the per-chunk
callback — and with it the unguarded percent division — is never invoked:
the transfer succeeds, but zero progress events are emitted rather than
the single 100% event the specification asserts. -/
theorem c1_zero_byte_transfer (env : Env) (cfg : Callbacks)
    (lp rp rsrc ldst : String) (hc : env.connected = true)
    (hl : env.localNode lp = some (FsNode.file 0))
    (hr : env.remoteNode rsrc = some (FsNode.file 0)) :
    chunkBoundaries 0 env.chunkSize = []
    ∧ upload_file env cfg false lp rp
        = (true, [FEvent.callUploadFile lp rp, FEvent.putFile lp rp])
    ∧ download_file env cfg false rsrc ldst
        = (true, [FEvent.callDownloadFile rsrc ldst, FEvent.getFile rsrc ldst])
    ∧ fileProgressValues (upload_file env cfg false lp rp).2 = []
    ∧ fileProgressValues (download_file env cfg false rsrc ldst).2 = [] := by
  have hb := chunkBoundaries_zero env.chunkSize
  have hup : upload_file env cfg false lp rp
      = (true, [FEvent.callUploadFile lp rp, FEvent.putFile lp rp]) := by
    simp [upload_file, hc, os_getsize, hl, hb, runChunkCallbacks]
  have hdown : download_file env cfg false rsrc ldst
      = (true, [FEvent.callDownloadFile rsrc ldst, FEvent.getFile rsrc ldst]) := by
    simp [download_file, hc, hr, hb, runChunkCallbacks]
  refine ⟨hb, hup, hdown, ?_, ?_⟩
  · rw [hup]
    rfl
  · rw [hdown]
    rfl

/-- Claim C1, counterexample to the claim as stated: a 0-byte upload with
all callbacks set emits no progress event at all, not exactly one 100%
event. -/
theorem c1_counterexample :
    ¬ fileProgressValues (upload_file env1 cfgAll false "a" "/r/a").2
        = [(100 : ℚ)] := by
  decide

/-- Claim C1, witness: the amended theorem applied to the concrete 0-byte
files of env1. -/
theorem c1_witness : env1.connected = true
    ∧ env1.localNode "a" = some (FsNode.file 0)
    ∧ env1.remoteNode "/r/b" = some (FsNode.file 0)
    ∧ upload_file env1 cfgAll false "a" "/r/a"
        = (true, [FEvent.callUploadFile "a" "/r/a", FEvent.putFile "a" "/r/a"]) :=
  ⟨rfl, rfl, rfl,
    (c1_zero_byte_transfer env1 cfgAll "a" "/r/a" "/r/b" "b" rfl rfl rfl).2.1⟩

/-- Claim C4 (confirmed): transfer_files called while a batch is in
progress returns false immediately and changes nothing: the engine state
(flags, callbacks, log) is returned untouched and no event is emitted. -/
theorem c4_submit_while_busy (env : Env) (s : EngineState)
    (jobs : List (String × String)) (direction : String)
    (cancelFrom : Option Nat) (h : s.transfer_in_progress = true) :
    transfer_files env s jobs direction cancelFrom = (false, s, []) := by
  simp [transfer_files, h]

/-- Claim C4, witness: a busy engine rejects a concrete submit. -/
theorem c4_witness : busy0.transfer_in_progress = true
    ∧ transfer_files env1 busy0 [("a", "/r/a")] "upload" none = (false, busy0, []) :=
  ⟨rfl, c4_submit_while_busy env1 busy0 [("a", "/r/a")] "upload" none rfl⟩

/-- Claim C5 (confirmed): log_transfer keeps the log at no more than 100
entries, and after 101 appends starting from an empty log the log is
exactly the last 100 entries in insertion order, so the first entry
(when distinct from the later ones) is no longer present. -/
theorem c5_log_capacity_fifo (es : List LogEntry) (h101 : es.length = 101) :
    (∀ (log : List LogEntry) (e : LogEntry), log.length ≤ 100 →
      (log_transfer log e).length ≤ 100)
    ∧ es.foldl log_transfer [] = es.tail
    ∧ (es.foldl log_transfer []).length = 100
    ∧ ∀ e0, es.head? = some e0 → e0 ∉ es.tail → e0 ∉ es.foldl log_transfer [] := by
  have hfold : es.foldl log_transfer [] = es.tail := by
    have hf := foldl_log_transfer es [] (by simp)
    simp only [List.nil_append] at hf
    have h1 : (101 : Nat) - 100 = 1 := by norm_num
    rw [hf, h101, h1, List.drop_one]
  refine ⟨?_, hfold, ?_, ?_⟩
  · intro log e hl
    rw [log_transfer_length]
    omega
  · rw [hfold, List.length_tail, h101]
  · intro e0 _ hni
    rw [hfold]
    exact hni

/-- Claim C5, witness: 101 concrete pairwise-distinct entries. -/
theorem c5_witness : es101.length = 101
    ∧ es101.foldl log_transfer [] = es101.tail :=
  ⟨by simp [es101], (c5_log_capacity_fifo es101 (by simp [es101])).2.1⟩

/-- Claim C8 (corrected): at a chunk boundary where the elapsed time is
exactly 0 seconds the source skips the whole speed/ETA block
(`if elapsed > 0:`), so the speed callback is not invoked at all — it does
not report "0 B/s" as the specification asserts. -/
theorem c8_zero_elapsed_no_speed_report (cancelled : Bool) (cfg : Callbacks)
    (file_size bytes : Nat) :
    speedValues (chunkCallback cancelled cfg file_size bytes 0) = []
    ∧ etaValues (chunkCallback cancelled cfg file_size bytes 0) = [] := by
  have hse : speedEtaEvents cfg file_size bytes 0 = [] := by
    simp [speedEtaEvents]
  unfold chunkCallback
  split
  · exact ⟨rfl, rfl⟩
  · split
    · split
      · exact ⟨rfl, rfl⟩
      · simp [speedValues, etaValues, hse, List.filterMap_cons]
    · simp [speedValues, etaValues, hse]

/-- Claim C8, counterexample to the claim as stated: a concrete chunk
boundary (1024 of 2048 bytes) with elapsed time 0 and the speed callback
set produces only the progress event — no speed report is made. -/
theorem c8_counterexample :
    (chunkCallback false cfgAll 2048 1024 0).toOption = some [FEvent.progress 50]
    ∧ speedValues (chunkCallback false cfgAll 2048 1024 0) = [] := by
  constructor
  · simp only [chunkCallback, speedEtaEvents, cfgAll]
    norm_num
    rfl
  · simp only [chunkCallback, speedEtaEvents, cfgAll, speedValues]
    norm_num [List.filterMap_cons]

/-- Claim C9 (corrected): get_transfer_log returns a shallow copy — the
returned list is the same sequence of entry references, so mutating the
list object itself cannot change the engine's log (value semantics of the
returned copy), and mutating an entry object at an address outside the
log is invisible; but in-place mutation of an entry the log shares with
the caller is visible through a later observation of the log. -/
theorem c9_shallow_copy_aliasing (h : Nat → LogEntry) (log : List Nat) (a : Nat)
    (e : LogEntry) :
    get_transfer_log log = log
    ∧ (a ∉ log → viewLog (heapSet h a e) log = viewLog h log)
    ∧ (a ∈ log → ¬ e = h a → ¬ viewLog (heapSet h a e) log = viewLog h log) :=
  ⟨rfl, viewLog_set_notin h a e log, fun ha hne => viewLog_set_ne h a e hne log ha⟩

/-- Claim C9, counterexample to the claim as stated: the engine log holds
the entry at address 0; the caller obtains the copy, mutates the shared
entry object in place, and a later observation of the internal log sees
the mutation. -/
theorem c9_counterexample :
    get_transfer_log [0] = [0]
    ∧ ¬ viewLog (heapSet heap0 0 entryB) (get_transfer_log [0])
        = viewLog heap0 [0] := by
  decide

/-- Claim C9, witness: the amended theorem applied to the concrete heap. -/
theorem c9_witness : (0 ∈ [0])
    ∧ ¬ entryB = heap0 0
    ∧ ¬ viewLog (heapSet heap0 0 entryB) [0] = viewLog heap0 [0] :=
  ⟨by decide, by decide,
    (c9_shallow_copy_aliasing heap0 [0] 0 entryB).2.2 (by decide) (by decide)⟩

/-- Claim C2 (code bug): on the spec scenario — a download batch whose
single job's remote source /remote/d is a directory containing f.bin and
the empty subdirectory sub — the worker dispatches the job to
download_file (the download branch of transfer_files has no directory
test), which fails on a directory: no local directory is created, nothing
is copied, nothing is logged.  The recursive walker download_directory,
present in the source but never invoked by transfer_files, would have
created d and d/sub and copied f.bin. -/
theorem c2_download_dir_not_delegated :
    (transfer_files env2 s0 [("/remote/d", "d")] "download" none).1 = true
    ∧ callsOf (transfer_files env2 s0 [("/remote/d", "d")] "download" none).2.2
        = [FEvent.callDownloadFile "/remote/d" "d"]
    ∧ mkdirLocalPaths (transfer_files env2 s0 [("/remote/d", "d")] "download" none).2.2
        = []
    ∧ (transfer_files env2 s0 [("/remote/d", "d")] "download" none).2.1.transfer_log
        = []
    ∧ (download_file env2 cfgAll false "/remote/d" "d").1 = false
    ∧ (download_directory env2 cfgAll 8 "/remote/d" "d").1 = true
    ∧ FEvent.mkdirLocal "d" ∈ (download_directory env2 cfgAll 8 "/remote/d" "d").2
    ∧ FEvent.mkdirLocal "d/sub" ∈ (download_directory env2 cfgAll 8 "/remote/d" "d").2
    ∧ FEvent.getFile "/remote/d/f.bin" "d/f.bin"
        ∈ (download_directory env2 cfgAll 8 "/remote/d" "d").2 := by
  decide

/-- Claim C3 (corrected): the batch worker logs one entry per successful
job — directory jobs included — and every new log entry's filename is the
basename of some job's source path; contained files of a directory job
are never logged individually. -/
theorem c3_one_entry_per_job (env : Env) (s : EngineState)
    (jobs : List (String × String)) (direction : String) (cancelFrom : Option Nat)
    (h : s.transfer_in_progress = false) :
    ∀ e ∈ (transfer_files env s jobs direction cancelFrom).2.1.transfer_log,
      e ∈ s.transfer_log ∨ ∃ j ∈ jobs, e.filename = basename j.1 := by
  intro e he
  simp only [transfer_files, h, Bool.false_eq_true, if_false, transfer_thread] at he
  exact batchLoop_log_mem env s.callbacks direction jobs.length cancelFrom jobs 0
    s.transfer_log e he

/-- Claim C3, counterexample to the claim as stated: an upload batch with
one directory job whose directory contains two files (both of which are
actually transferred) adds exactly one log entry, and that entry's
filename is the directory's name, contradicting "one entry per
transferred file" and "no entry whose filename is the directory's
name". -/
theorem c3_counterexample :
    ((transfer_files env3 s0 [("/home/u/pics", "/srv/pics")] "upload"
        none).2.1.transfer_log.map (fun e => e.filename)) = ["pics"]
    ∧ (upload_directory env3 cfgAll 8 "/home/u/pics" "/srv/pics").1 = true
    ∧ FEvent.putFile "/home/u/pics/a.txt" "/srv/pics/a.txt"
        ∈ (upload_directory env3 cfgAll 8 "/home/u/pics" "/srv/pics").2
    ∧ FEvent.putFile "/home/u/pics/b.txt" "/srv/pics/b.txt"
        ∈ (upload_directory env3 cfgAll 8 "/home/u/pics" "/srv/pics").2 := by
  decide

/-- Claim C3, witness: the amended theorem applied to the directory-upload
batch of env3. -/
theorem c3_witness : s0.transfer_in_progress = false
    ∧ ∀ e ∈ (transfer_files env3 s0 [("/home/u/pics", "/srv/pics")] "upload"
        none).2.1.transfer_log,
      e ∈ s0.transfer_log
        ∨ ∃ j ∈ [("/home/u/pics", "/srv/pics")], e.filename = basename j.1 :=
  ⟨rfl, c3_one_entry_per_job env3 s0 [("/home/u/pics", "/srv/pics")] "upload" none rfl⟩

/-- Claim C6 (corrected): a failing job aborts neither the remaining jobs
nor the batch — every job's "Transferring" status is emitted in order and
the batch ends with "Transfer completed" — but contrary to the claim no
error status is emitted for the failed job: the status messages of the
whole batch are exactly the per-job announcements plus the final message,
whatever the per-job outcomes. -/
theorem c6_failure_isolated (env : Env) (s : EngineState)
    (jobs : List (String × String)) (direction : String)
    (h1 : s.transfer_in_progress = false) (h2 : s.callbacks.status = true) :
    statusMsgs (transfer_files env s jobs direction none).2.2
      = ((jobs.enumFrom 0).map fun p => transferringMsg p.1 jobs.length p.2.1)
        ++ ["Transfer completed"] := by
  simp only [transfer_files, h1, Bool.false_eq_true, if_false, transfer_thread]
  rw [statusMsgs_append,
    batchLoop_statusMsgs_none env s.callbacks direction jobs.length h2 jobs 0
      s.transfer_log]
  have hflag : cancelFlag none jobs.length = false := rfl
  rw [hflag, statusMsgs_ite_status, h2]
  simp

/-- Claim C6, counterexample to the claim as stated: the first job of the
concrete batch fails (missing remote file), yet the status trace contains
no error status for it — only the two announcements and the completion
message — while the second job still runs and is logged. -/
theorem c6_counterexample :
    (download_file env6 cfgAll false "/r/x" "x").1 = false
    ∧ statusMsgs (transfer_files env6 s0 jobs6 "download" none).2.2
        = ["Transferring (1/2): x", "Transferring (2/2): y", "Transfer completed"]
    ∧ ((transfer_files env6 s0 jobs6 "download" none).2.1.transfer_log.map
        (fun e => e.filename)) = ["y"] := by
  decide

/-- Claim C6, witness: the amended theorem applied to the two-job batch
with a failing first job. -/
theorem c6_witness : s0.transfer_in_progress = false
    ∧ s0.callbacks.status = true
    ∧ statusMsgs (transfer_files env6 s0 jobs6 "download" none).2.2
        = ((jobs6.enumFrom 0).map fun p => transferringMsg p.1 jobs6.length p.2.1)
          ++ ["Transfer completed"] :=
  ⟨rfl, rfl, c6_failure_isolated env6 s0 jobs6 "download" rfl rfl⟩

/-- Claim C7 (confirmed): when the cancel flag is observed at the
checkpoint before job k, the jobs from index k on are never started (the
status trace announces exactly the first k jobs), the batch emits the
final status "Transfer cancelled", both flags are false after the batch
ends, and a subsequent submit is accepted. -/
theorem c7_cancel_skips_resets (env : Env) (s : EngineState)
    (jobs : List (String × String)) (direction : String) (k : Nat)
    (h1 : s.transfer_in_progress = false) (h2 : s.callbacks.status = true)
    (hk : k ≤ jobs.length) :
    statusMsgs (transfer_files env s jobs direction (some k)).2.2
      = (((jobs.take k).enumFrom 0).map fun p => transferringMsg p.1 jobs.length p.2.1)
        ++ ["Transfer cancelled"]
    ∧ (transfer_files env s jobs direction (some k)).2.1.transfer_in_progress = false
    ∧ (transfer_files env s jobs direction (some k)).2.1.transfer_cancelled = false
    ∧ ∀ (jobs2 : List (String × String)) (direction2 : String) (cf2 : Option Nat),
        (transfer_files env (transfer_files env s jobs direction (some k)).2.1
          jobs2 direction2 cf2).1 = true := by
  refine ⟨?_, ?_, ?_, ?_⟩
  · simp only [transfer_files, h1, Bool.false_eq_true, if_false, transfer_thread]
    rw [statusMsgs_append,
      batchLoop_statusMsgs_cancel env s.callbacks direction jobs.length k h2 jobs 0
        s.transfer_log]
    have hflag : cancelFlag (some k) jobs.length = true := by
      simp [cancelFlag, hk]
    rw [hflag, statusMsgs_ite_status, h2, Nat.sub_zero]
    simp
  · simp [transfer_files, h1]
  · simp [transfer_files, h1]
  · intro jobs2 direction2 cf2
    simp [transfer_files, h1]

/-- Claim C7, witness: cancelling at the checkpoint before job 1 of the
two-job batch. -/
theorem c7_witness : s0.transfer_in_progress = false
    ∧ s0.callbacks.status = true
    ∧ 1 ≤ jobs6.length
    ∧ statusMsgs (transfer_files env6 s0 jobs6 "download" (some 1)).2.2
        = (((jobs6.take 1).enumFrom 0).map fun p => transferringMsg p.1 jobs6.length p.2.1)
          ++ ["Transfer cancelled"] :=
  ⟨rfl, rfl, by decide,
    (c7_cancel_skips_resets env6 s0 jobs6 "download" 1 rfl rfl (by decide)).1⟩

/-- Claim C10 (confirmed): any direction string other than "upload" is
treated, without validation, as a download: every job of the batch is
dispatched to the single-file download routine with the job's source and
destination — no directory test, no other routine. -/
theorem c10_nonupload_is_download (env : Env) (s : EngineState)
    (jobs : List (String × String)) (direction : String)
    (h1 : s.transfer_in_progress = false) (hdir : ¬ direction = "upload") :
    callsOf (transfer_files env s jobs direction none).2.2
      = jobs.map (fun j => FEvent.callDownloadFile j.1 j.2) := by
  simp only [transfer_files, h1, Bool.false_eq_true, if_false, transfer_thread]
  rw [callsOf_append,
    batchLoop_calls_nonupload env s.callbacks direction jobs.length hdir jobs 0
      s.transfer_log, callsOf_ite_status]
  simp

/-- Claim C10, witness: direction "Download" on a job whose source is a
local directory is still dispatched to the single-file download. -/
theorem c10_witness : s0.transfer_in_progress = false
    ∧ ¬ "Download" = "upload"
    ∧ callsOf (transfer_files env3 s0 [("/home/u/pics", "x")] "Download" none).2.2
        = [FEvent.callDownloadFile "/home/u/pics" "x"] :=
  ⟨rfl, by decide, by
    have h := c10_nonupload_is_download env3 s0 [("/home/u/pics", "x")] "Download" rfl
      (by decide)
    simpa using h⟩

end RPFT
